import Mathlib

/-!
# Verification of the evblog static-site generator core

Shallow embedding of `src/main.rs` from the `evblog` repository: front-matter
extraction, TOML-driven metadata, document assembly, the index sort and the
tag-grouped index rendering. External collaborators (the markdown renderer,
the TOML parser, the file system) are modelled as explicit function
parameters / read outcomes, exactly at the boundary the program uses them.

Machine integers (`u16` year, `u8` month/day) are modelled as `Nat`; the
program only compares them, so no overflow behaviour is involved.
-/

namespace Evblog

/-- `toml::value::Date`: year (u16), month (u8), day (u8), modelled as `Nat`. -/
structure Date where
  year : Nat
  month : Nat
  day : Nat
deriving DecidableEq, Repr

/-- The month-name table of `date_to_english` (`main.rs` lines 42-56). -/
def monthName (m : Nat) : String :=
  match m with
  | 1 => "January"
  | 2 => "February"
  | 3 => "March"
  | 4 => "April"
  | 5 => "May"
  | 6 => "June"
  | 7 => "July"
  | 8 => "August"
  | 9 => "September"
  | 10 => "October"
  | 11 => "November"
  | 12 => "December"
  | _ => ""

/-- The ordinal-suffix match of `date_to_english` (`main.rs` lines 58-63):
`match date.day % 10 { 1 => "st", 2 => "nd", 3 => "rd", _ => "th" }`. -/
def daySuffix (d : Nat) : String :=
  match d % 10 with
  | 1 => "st"
  | 2 => "nd"
  | 3 => "rd"
  | _ => "th"

/-- `date_to_english` (`main.rs` lines 39-66):
`format!("{} {}{}, {}", month-name, day, suffix, year)`. -/
def date_to_english (date : Date) : String :=
  monthName date.month ++ " " ++ toString date.day ++ daySuffix date.day
    ++ ", " ++ toString date.year

/-- Spec-side month table ("Month" written out in English), for comparison
with the program's `monthName`. -/
def englishMonthSpec (m : Nat) : String :=
  match m with
  | 1 => "January"
  | 2 => "February"
  | 3 => "March"
  | 4 => "April"
  | 5 => "May"
  | 6 => "June"
  | 7 => "July"
  | 8 => "August"
  | 9 => "September"
  | 10 => "October"
  | 11 => "November"
  | 12 => "December"
  | _ => ""

/-- Spec-side ordinal-suffix rule, from the claim's words: the suffix is
chosen from the day's last digit alone — 1 gives "st", 2 gives "nd",
3 gives "rd", anything else "th"; no special-casing of 11-13. -/
def ordinalSuffixSpec (day : Nat) : String :=
  if day % 10 = 1 then "st"
  else if day % 10 = 2 then "nd"
  else if day % 10 = 3 then "rd"
  else "th"

/-! ## TOML value model

`toml::Value` as far as the program consumes it: string, integer, boolean,
datetime (whose `.date` field is an `Option<Date>`), array, table.
(The `Float` variant is omitted; the program never constructs or inspects
floats, and any extra variant only ever hits a `_`/`None` arm.) -/

inductive TomlValue where
  | str (s : String)
  | integer (n : Int)
  | boolean (b : Bool)
  | datetime (d : Option Date)
  | arr (xs : List TomlValue)
  | table (t : List (String × TomlValue))

/-- `toml::Table`, an association from keys to values (`BTreeMap` in the
library; keys of interest are looked up with `.get`). -/
abbrev TomlTable := List (String × TomlValue)

/-- `Table::get(key)`. -/
def tomlGet (t : TomlTable) (k : String) : Option TomlValue :=
  List.lookup k t

/-- `Value::as_str()`: `Some` exactly for strings. -/
def TomlValue.as_str : TomlValue → Option String
  | .str s => some s
  | _ => none

/-- `Value::as_array()`: `Some` exactly for arrays. -/
def TomlValue.as_array : TomlValue → Option (List TomlValue)
  | .arr xs => some xs
  | _ => none

/-- `Value::as_table()`: `Some` exactly for tables. -/
def TomlValue.as_table : TomlValue → Option TomlTable
  | .table t => some t
  | _ => none

/-- The external TOML parser (`str::parse::<toml::Table>`), a library call
the program treats as a black box producing a table or an error message. -/
abbrev TomlParser := String → Except String TomlTable

/-! ## Metadata (`struct Metadata`, `main.rs` lines 68-117) -/

structure Metadata where
  title : Option String
  tags : List String
  publish_date : Option Date
  file_name : String
deriving DecidableEq, Repr

/-- `Metadata::new()`. -/
def Metadata.new : Metadata :=
  { title := none, tags := [], publish_date := none, file_name := "" }

/-- The field-extraction part of `Metadata::from_toml` after a successful
parse (`main.rs` lines 99-113): three independent `if let` probes on the
parsed table, in source order. -/
def Metadata.fromTable (toml : TomlTable) : Metadata :=
  let m := Metadata.new
  let m := match tomlGet toml "title" with
    | some (.str title) => { m with title := some title }
    | _ => m
  let m := match tomlGet toml "published" with
    | some (.datetime datetime) => { m with publish_date := datetime }
    | _ => m
  let m := match tomlGet toml "tags" with
    | some (.arr tags) => { m with tags := tags.filterMap TomlValue.as_str }
    | _ => m
  m

/-- `Metadata::from_toml` (`main.rs` lines 86-116), with the external TOML
parser passed in. The second component is the list of stderr lines emitted
(`eprintln!` on parse failure). -/
def Metadata.from_toml (parse : TomlParser) (toml : String) : Metadata × List String :=
  if toml.length = 0 then (Metadata.new, [])
  else
    match parse toml with
    | .error err => (Metadata.new, ["Failed to read TOML: " ++ err])
    | .ok table => (Metadata.fromTable table, [])

/-- Spec-side: the `title` field depends only on the `title` key — a string
value is taken, anything else (absent or wrong kind) leaves the default. -/
def specTitle (t : TomlTable) : Option String :=
  match tomlGet t "title" with
  | some (.str s) => some s
  | _ => none

/-- Spec-side: the `publish_date` field depends only on the `published` key —
a datetime's date part is taken, anything else leaves the default. -/
def specPublishDate (t : TomlTable) : Option Date :=
  match tomlGet t "published" with
  | some (.datetime d) => d
  | _ => none

/-- Spec-side: the `tags` field depends only on the `tags` key — from an
array value, exactly the string entries are kept (non-strings skipped
individually); anything else leaves the default. -/
def specTags (t : TomlTable) : List String :=
  match tomlGet t "tags" with
  | some (.arr xs) => xs.filterMap TomlValue.as_str
  | _ => []

/-! ## Index configuration (`struct Tag`, `struct IndexConfig`,
`main.rs` lines 119-182) -/

structure Tag where
  name : String
  description : String
deriving DecidableEq, Repr

structure IndexConfig where
  title : String
  tags : List Tag
deriving DecidableEq, Repr

/-- `IndexConfig::new()`. -/
def IndexConfig.new : IndexConfig :=
  { title := "", tags := [] }

/-- `IndexConfig::open` (`main.rs` lines 139-181), with the file read and the
TOML parse as explicit outcomes. The second component is the list of stderr
lines emitted. -/
def IndexConfig.open (parse : TomlParser) (path : String)
    (readResult : Except String String) : IndexConfig × List String :=
  match readResult with
  | .error err => (IndexConfig.new, ["Failed to open " ++ path ++ ": " ++ err])
  | .ok toml =>
    match parse toml with
    | .error err => (IndexConfig.new, ["Failed to parse " ++ path ++ ": " ++ err])
    | .ok table =>
      let config := IndexConfig.new
      let config := match (tomlGet table "title").bind TomlValue.as_str with
        | some title => { config with title := title }
        | none => config
      let config := match (tomlGet table "tag").bind TomlValue.as_array with
        | some tags =>
          { config with
            tags := tags.filterMap fun tag =>
              (tag.as_table).map fun tag_table =>
                { name := (((tomlGet tag_table "name").bind TomlValue.as_str).getD "")
                  description :=
                    (((tomlGet tag_table "description").bind TomlValue.as_str).getD "") } }
        | none => config
      (config, [])

/-- Spec-side: the TagDefinition a `tag`-array table yields — missing or
non-string `name`/`description` sub-fields default to empty strings. -/
def tagOfTable (tag_table : TomlTable) : Tag :=
  { name := (((tomlGet tag_table "name").bind TomlValue.as_str).getD "")
    description := (((tomlGet tag_table "description").bind TomlValue.as_str).getD "") }

/-! ## Front-matter extraction (`main.rs` lines 206-216) -/

/-- `str::starts_with(pat)`: a prefix check, modelled on the underlying
character sequence (for a valid UTF-8 pattern the byte-prefix and
character-prefix checks agree). -/
def strStartsWith (document pat : String) : Bool :=
  pat.data.isPrefixOf document.data

/-- `str::split("\n")`: the pieces between newline separators, in order,
empty pieces kept (n separators yield n+1 pieces), modelled on the
underlying character sequence. -/
def splitNl (document : String) : List String :=
  (document.data.splitOn '\n').map List.asString

/-- The accumulation loop of `convert_document`: consume lines, stop at the
first line equal to `"-->"` (the `break`), otherwise append the line and a
newline to the accumulator. -/
def metadataLoop : List String → String → String
  | [], acc => acc
  | line :: rest, acc =>
    if line = "-->" then acc else metadataLoop rest (acc ++ line ++ "\n")

/-- Lines 206-216 of `convert_document`: if the document starts with the
string `"<!-- metadata"`, split on `"\n"`, skip the first line, and run the
accumulation loop; otherwise the block stays empty. -/
def extractMetadataBlock (document : String) : String :=
  if strStartsWith document "<!-- metadata" then
    metadataLoop ((splitNl document).drop 1) ""
  else ""

/-- Spec-side description of the accumulated block: every line after the
first, each followed by a newline, up to (excluding) the first line exactly
equal to `"-->"`. -/
def specAccumulatedBlock (document : String) : String :=
  String.join
    ((((splitNl document).drop 1).takeWhile (fun line => line ≠ "-->")).map
      (fun line => line ++ "\n"))

/-! ## Document assembly (`convert_document`, `main.rs` lines 191-252) -/

/-- How a `convert_document` run can terminate the process: `exit(1)` after
an `eprintln!` (source unreadable / destination unwritable), or a panic from
`.unwrap()` on an `Err` (prologue/epilogue unreadable). Either way the
message reaches the error stream. -/
inductive Fatal where
  | exitCode (code : Nat) (msg : String)
  | panicked (msg : String)
deriving DecidableEq, Repr

/-- Spec-side: does this termination carry exit code 1? A panic does not —
a panicking Rust process exits with a distinct nonzero code (101), not 1. -/
def exitsWithCodeOne : Fatal → Bool
  | .exitCode c _ => c == 1
  | .panicked _ => false

/-- The `markdown::CompileOptions` fields the program sets
(`main.rs` lines 232-241): raw HTML passthrough on, GFM base options. -/
structure CompileOptions where
  allow_dangerous_html : Bool
  gfm : Bool
deriving DecidableEq, Repr

/-- Prologue/epilogue configuration: `None` when the CLI flag is absent,
otherwise the outcome of reading the configured file. -/
structure ConvertConfig where
  prologue : Option (Except String String)
  epilogue : Option (Except String String)

/-- `optional_file_concat` (`main.rs` lines 184-189): append the optional
file's contents, propagating a read error as `Err`. -/
def optional_file_concat (out : String)
    (file : Option (Except String String)) : Except String String :=
  match file with
  | none => .ok out
  | some (.ok contents) => .ok (out ++ contents)
  | some (.error e) => .error e

/-- What a successful `convert_document` produced: the returned metadata,
the html written to the destination, the exact string handed to the
markdown renderer together with the options used, and the stderr lines. -/
structure ConvertResult where
  metadata : Metadata
  html : String
  renderedInput : String
  options : CompileOptions
  warnings : List String
deriving Repr

/-- `convert_document` (`main.rs` lines 191-252). `render` is the external
`markdown::to_html_with_options` call on the full document text;
`infileRead` / `writeResult` are the file-system outcomes. -/
def convert_document (parse : TomlParser) (render : String → String)
    (cfg : ConvertConfig) (infileName : String)
    (infileRead : Except String String) (outfileName : String)
    (writeResult : Except String Unit) : Except Fatal ConvertResult :=
  match infileRead with
  | .error err => .error (.exitCode 1 ("Failed to read " ++ infileName ++ ": " ++ err))
  | .ok document =>
    let block := extractMetadataBlock document
    let parsed := Metadata.from_toml parse block
    let metadata : Metadata := { parsed.1 with file_name := outfileName }
    let html := ""
    match optional_file_concat html cfg.prologue with
    | .error e => .error (.panicked e)
    | .ok html =>
      let html := match metadata.title with
        | some title => html ++ "<h1><center> " ++ title ++ " </center></h1>\n"
        | none => html
      let html := html ++ render document
      match optional_file_concat html cfg.epilogue with
      | .error e => .error (.panicked e)
      | .ok html =>
        match writeResult with
        | .error err =>
          .error (.exitCode 1 ("Failed to write to " ++ outfileName ++ ": " ++ err))
        | .ok _ =>
          .ok { metadata := metadata, html := html, renderedInput := document,
                options := { allow_dangerous_html := true, gfm := true },
                warnings := parsed.2 }

/-- The contents a configured fragment contributes when its read succeeds
(helper for stating the assembly equation uniformly). -/
def fragmentOf : Option (Except String String) → String
  | some (.ok s) => s
  | _ => ""

/-- Spec-side: the centered level-1 heading emitted when a title is present
(`main.rs` line 228), the empty string otherwise. The title text appears
verbatim, unescaped, between fixed delimiters. -/
def titleHeading : Option String → String
  | some title => "<h1><center> " ++ title ++ " </center></h1>\n"
  | none => ""

/-! ## The index sort (`main.rs` lines 273-286) -/

/-- `Ord::cmp` on unsigned integers. -/
def natCmp (a b : Nat) : Ordering :=
  if a < b then .lt else if a = b then .eq else .gt

/-- The comparator closure of `article_data.sort_by(|b, a| ...)`
(`main.rs` lines 273-286). The parameter names mirror the source: the
closure's first argument is bound to `b`, the second to `a`. -/
def dateCmpDesc (b a : Metadata) : Ordering :=
  match a.publish_date, b.publish_date with
  | some _, none => .gt
  | none, some _ => .lt
  | none, none => .eq
  | some a_date, some b_date =>
    let year_cmp := natCmp a_date.year b_date.year
    if year_cmp ≠ .eq then year_cmp
    else
      let month_cmp := natCmp a_date.month b_date.month
      if month_cmp ≠ .eq then month_cmp
      else natCmp a_date.day b_date.day

/-- The "comes no later than" relation induced by the comparator: `sort_by`
places `x` before `y` (or keeps them adjacent-equal) exactly when the
comparator does not return `Greater` on `(x, y)`. -/
def articleLE (x y : Metadata) : Prop :=
  dateCmpDesc x y ≠ Ordering.gt

instance : DecidableRel articleLE := fun x y => by
  unfold articleLE; infer_instance

/-- `Vec::sort_by` is a stable sort; it is modelled by stable insertion
sort with respect to the comparator's induced relation. -/
def sortArticles (l : List Metadata) : List Metadata :=
  List.insertionSort articleLE l

/-- Spec-side: lexicographic year/month/day order on dates. -/
def Date.lexLE (d e : Date) : Prop :=
  d.year < e.year ∨
    (d.year = e.year ∧ (d.month < e.month ∨ (d.month = e.month ∧ d.day ≤ e.day)))

/-- Spec-side: `x` may precede `y` in the index order — descending by date
(year, then month, then day), dated before dateless, dateless tied with
dateless. -/
def specBefore (x y : Metadata) : Prop :=
  match x.publish_date, y.publish_date with
  | some dx, some dy => Date.lexLE dy dx
  | some _, none => True
  | none, some _ => False
  | none, none => True

/-! ## Index rendering (`main.rs` lines 288-309) -/

/-- The per-article date part of a listing line:
`"<br>{date_to_english}"` when a publish date is present. -/
def listingDatePart (article : Metadata) : String :=
  match article.publish_date with
  | some date => "<br>" ++ date_to_english date
  | none => ""

/-- The listing line for one article inside a tag section (`main.rs`
lines 298-307): `continue` (no line) when the title is absent, otherwise
`- [{title}]({file_name})` plus the optional date part and a newline. -/
def articleListingLine (article : Metadata) : Option String :=
  match article.title with
  | none => none
  | some title =>
    some ("- [" ++ title ++ "](" ++ article.file_name ++ ")"
      ++ listingDatePart article ++ "\n")

/-- The listing lines of one tag's section: the sorted article list filtered
by `a.tags.contains(&tag.name)`, each surviving article contributing its
listing line (articles without a title are skipped by the `continue`). -/
def sectionLines (article_data : List Metadata) (tagName : String) : List String :=
  (article_data.filter (fun a => a.tags.contains tagName)).filterMap articleListingLine

/-- One tag's section (`main.rs` lines 294-309):
`## {name}\n{description}\n` followed by the listing lines. -/
def tagSection (article_data : List Metadata) (tag : Tag) : String :=
  "## " ++ tag.name ++ "\n" ++ tag.description ++ "\n"
    ++ String.join (sectionLines article_data tag.name)

/-- The rendered `index.md` (`main.rs` lines 290-309): the centered title
heading, then one section per configured tag, in declared order. -/
def renderIndex (config : IndexConfig) (article_data : List Metadata) : String :=
  "# <center> " ++ config.title ++ " </center>\n"
    ++ String.join (config.tags.map (tagSection article_data))

/-- The articles actually listed in a tag's section: tags contain the name
and a title is present. -/
def listedArticles (article_data : List Metadata) (tagName : String) : List Metadata :=
  (article_data.filter (fun a => a.tags.contains tagName)).filter
    (fun a => a.title.isSome)

/-! ## The directory driver (`main`, `main.rs` lines 254-334), as far as the
fatal-error claim needs it: documents are converted in enumeration order,
each successful conversion writes its output file, a fatal error stops the
run with the already-written files untouched. -/

structure DocJob where
  path : String
  readResult : Except String String
  outPath : String
  writeResult : Except String Unit

/-- One pass of the per-document loop of `main` (directory mode): metadata
is collected, written `(path, html)` pairs accumulate; the first fatal
outcome aborts the run, returning what was already on disk. -/
def processDocs (parse : TomlParser) (render : String → String)
    (cfg : ConvertConfig) :
    List DocJob → List Metadata → List (String × String) →
    Except (Fatal × List (String × String)) (List Metadata × List (String × String))
  | [], mds, written => .ok (mds, written)
  | job :: rest, mds, written =>
    match convert_document parse render cfg job.path job.readResult
        job.outPath job.writeResult with
    | .error f => .error (f, written)
    | .ok r =>
      processDocs parse render cfg rest (mds ++ [r.metadata])
        (written ++ [(job.outPath, r.html)])

end Evblog

/-! # Theorems -/

namespace Evblog

lemma daySuffix_eq_spec (d : Nat) : daySuffix d = ordinalSuffixSpec d := by
  unfold daySuffix ordinalSuffixSpec
  rcases hd : d % 10 with _ | _ | _ | _ | n
  · simp [hd]
  · simp [hd]
  · simp [hd]
  · simp [hd]
  · simp [hd]

lemma monthName_eq_spec (m : Nat) : monthName m = englishMonthSpec m := by
  unfold monthName englishMonthSpec
  rfl

/-- C5: for every date with month in 1..12, the formatter yields
"Month Day<suffix>, Year" with the suffix chosen from the day's last digit
alone (1→"st", 2→"nd", 3→"rd", else "th"), with no special-casing of 11-13. -/
theorem date_to_english_spec (y m d : Nat) (h1 : 1 ≤ m) (h2 : m ≤ 12) :
    date_to_english ⟨y, m, d⟩ =
      englishMonthSpec m ++ " " ++ toString d ++ ordinalSuffixSpec d ++ ", " ++ toString y
      ∧ englishMonthSpec m ≠ "" := by
  constructor
  · unfold date_to_english
    rw [daySuffix_eq_spec, monthName_eq_spec]
  · interval_cases m <;> simp [englishMonthSpec]

/-- Witness for C5 at a concrete date: May 11, 2024 renders "May 11st, 2024"
(the naive rule, no 11th special case). -/
theorem date_to_english_spec_witness :
    (date_to_english ⟨2024, 5, 11⟩ =
      englishMonthSpec 5 ++ " " ++ toString 11 ++ ordinalSuffixSpec 11 ++ ", " ++ toString 2024
      ∧ englishMonthSpec 5 ≠ "")
    ∧ date_to_english ⟨2024, 5, 11⟩ = "May 11st, 2024" :=
  ⟨date_to_english_spec 2024 5 11 (by decide) (by decide), by decide⟩

end Evblog

namespace Evblog

example : extractMetadataBlock "<!-- metadata\nfoo = 1\n-->\nbody" = "foo = 1\n" := by decide

example : extractMetadataBlock "no marker\nfoo = 1\n-->" = "" := by decide

example : extractMetadataBlock "<!-- metadataXY\nfoo = 1\n-->\nbody" = "foo = 1\n" := by decide

example : extractMetadataBlock "<!-- metadata\nfoo = 1\nbar = 2" = "foo = 1\nbar = 2\n" := by decide

example :
    sortArticles
      [ { title := some "b", tags := [], publish_date := some ⟨2024, 1, 15⟩, file_name := "b" },
        { title := none, tags := [], publish_date := none, file_name := "u" },
        { title := some "a", tags := [], publish_date := some ⟨2024, 3, 1⟩, file_name := "a" } ]
    = [ { title := some "a", tags := [], publish_date := some ⟨2024, 3, 1⟩, file_name := "a" },
        { title := some "b", tags := [], publish_date := some ⟨2024, 1, 15⟩, file_name := "b" },
        { title := none, tags := [], publish_date := none, file_name := "u" } ] := by decide

example :
    sectionLines
      [ { title := some "A", tags := ["tech"], publish_date := some ⟨2024, 5, 1⟩, file_name := "a.html" },
        { title := none, tags := ["tech"], publish_date := none, file_name := "n.html" },
        { title := some "", tags := ["tech"], publish_date := none, file_name := "e.html" } ]
      "tech"
    = ["- [A](a.html)<br>May 1st, 2024\n", "- [](e.html)\n"] := by decide

end Evblog

namespace Evblog

lemma string_foldl_append (xs : List String) (a : String) :
    List.foldl (fun r s => r ++ s) a xs = a ++ List.foldl (fun r s => r ++ s) "" xs := by
  induction xs generalizing a with
  | nil => simp
  | cons x rest ih =>
    simp only [List.foldl_cons]
    rw [ih (a ++ x), ih ("" ++ x)]
    simp [String.append_assoc]

lemma string_join_cons (x : String) (xs : List String) :
    String.join (x :: xs) = x ++ String.join xs := by
  unfold String.join
  simp only [List.foldl_cons]
  rw [string_foldl_append]
  simp

lemma metadataLoop_eq (lines : List String) (acc : String) :
    metadataLoop lines acc
      = acc ++ String.join ((lines.takeWhile (fun l => l ≠ "-->")).map (fun l => l ++ "\n")) := by
  induction lines generalizing acc with
  | nil => simp [metadataLoop, String.join]
  | cons line rest ih =>
    unfold metadataLoop
    by_cases h : line = "-->"
    · rw [if_pos h]
      simp [List.takeWhile_cons, h, String.join]
    · rw [if_neg h, ih, List.takeWhile_cons]
      simp [h, string_join_cons, String.append_assoc]

/-- C2 (amended): if the document starts with the prefix `"<!-- metadata"`
(the rest of the first line being irrelevant), the extracted block is every
line after the first, each followed by a newline, up to the first line
exactly `"-->"`; if the prefix is absent, the block is empty and parsing it
returns the default record (no title, no tags, no date) with no log. -/
theorem metadata_block_extraction (document : String) (parse : TomlParser) :
    (strStartsWith document "<!-- metadata" = true →
      extractMetadataBlock document = specAccumulatedBlock document)
    ∧ (strStartsWith document "<!-- metadata" = false →
      extractMetadataBlock document = ""
      ∧ Metadata.from_toml parse (extractMetadataBlock document) = (Metadata.new, [])) := by
  constructor
  · intro h
    unfold extractMetadataBlock specAccumulatedBlock
    rw [if_pos h, metadataLoop_eq]
    simp
  · intro h
    have he : extractMetadataBlock document = "" := by
      unfold extractMetadataBlock
      rw [if_neg (by simp [h])]
    refine ⟨he, ?_⟩
    rw [he]
    rfl

/-- Witness for C2 on concrete documents: a document with the marker prefix
and a terminated block, and a document without the marker. -/
theorem metadata_block_extraction_witness :
    (extractMetadataBlock "<!-- metadata\nfoo = 1\n-->\nbody"
      = specAccumulatedBlock "<!-- metadata\nfoo = 1\n-->\nbody")
    ∧ (extractMetadataBlock "plain text\n-->" = ""
      ∧ Metadata.from_toml (fun _ => .error "boom") (extractMetadataBlock "plain text\n-->")
          = (Metadata.new, [])) :=
  ⟨(metadata_block_extraction "<!-- metadata\nfoo = 1\n-->\nbody" (fun _ => .error "boom")).1
      (by decide),
   (metadata_block_extraction "plain text\n-->" (fun _ => .error "boom")).2 (by decide)⟩

/-- C2 counterexample to the claim as stated: this document does not begin
with the exact marker line `"<!-- metadata"` (its first line is
`"<!-- metadataX"`), yet the extracted block is not empty — the code checks
only a string prefix, not a whole line. -/
theorem metadata_marker_counterexample :
    (splitNl "<!-- metadataX\nfoo = 1\n-->\nbody").head? ≠ some "<!-- metadata"
    ∧ extractMetadataBlock "<!-- metadataX\nfoo = 1\n-->\nbody" = "foo = 1\n" := by
  constructor
  · decide
  · decide

/-- C7: after a successful TOML parse, each recognized field is computed
from its own key alone — absent or wrong-kind values leave that field (and
only that field) at its default; string entries of a `tags` array are kept
and non-string entries skipped individually; and no log line is emitted. -/
theorem from_toml_field_tolerance (parse : TomlParser) (s : String) (t : TomlTable)
    (hs : ¬ s.length = 0) (hp : parse s = .ok t) :
    Metadata.from_toml parse s
      = ({ title := specTitle t, tags := specTags t,
           publish_date := specPublishDate t, file_name := "" }, []) := by
  unfold Metadata.from_toml
  rw [if_neg hs, hp]
  show (Metadata.fromTable t, []) = _
  unfold Metadata.fromTable specTitle specTags specPublishDate Metadata.new
  dsimp only
  rcases tomlGet t "title" with _ | (a | a | a | a | a | a) <;>
    rcases tomlGet t "published" with _ | (b | b | b | b | b | b) <;>
      rcases tomlGet t "tags" with _ | (c | c | c | c | c | c) <;> rfl

/-- Witness for C7: `tags` given as a string is ignored while the valid
title is still taken; a mixed array keeps exactly the string entries. -/
theorem from_toml_field_tolerance_witness :
    Metadata.from_toml
      (fun _ => .ok [("title", .str "T"), ("tags", .str "oops")]) "x"
      = ({ title := specTitle [("title", .str "T"), ("tags", .str "oops")],
           tags := specTags [("title", .str "T"), ("tags", .str "oops")],
           publish_date := specPublishDate [("title", .str "T"), ("tags", .str "oops")],
           file_name := "" }, [])
    ∧ Metadata.from_toml
        (fun _ => .ok [("tags", .arr [.str "a", .integer 3, .str "b"])]) "y"
        = ({ title := none, tags := ["a", "b"], publish_date := none, file_name := "" }, []) :=
  ⟨from_toml_field_tolerance _ "x" _ (by decide) rfl,
   by
    rw [from_toml_field_tolerance _ "y" [("tags", .arr [.str "a", .integer 3, .str "b"])]
      (by decide) rfl]
    rfl⟩

end Evblog

namespace Evblog

/-- C8: an unreadable or unparsable tag-config file is logged and yields the
default IndexConfig (empty title, no tags), and index generation still
proceeds, rendering a heading-only page; on a successful parse, each table
in the `tag` array yields a TagDefinition whose missing or non-string
`name`/`description` sub-fields default to empty strings (non-table array
entries are skipped). -/
theorem index_config_open_spec (parse : TomlParser) (path : String) :
    (∀ e, IndexConfig.open parse path (.error e)
        = (IndexConfig.new, ["Failed to open " ++ path ++ ": " ++ e]))
    ∧ (∀ s e, parse s = .error e →
        IndexConfig.open parse path (.ok s)
          = (IndexConfig.new, ["Failed to parse " ++ path ++ ": " ++ e]))
    ∧ (∀ s t, parse s = .ok t →
        IndexConfig.open parse path (.ok s)
          = ({ title := (((tomlGet t "title").bind TomlValue.as_str).getD ""),
               tags := (((tomlGet t "tag").bind TomlValue.as_array).getD []).filterMap
                 (fun tag => (tag.as_table).map tagOfTable) }, []))
    ∧ (∀ article_data, renderIndex IndexConfig.new article_data
        = "# <center>  </center>\n") := by
  refine ⟨fun e => rfl, fun s e hp => ?_, fun s t hp => ?_, fun article_data => ?_⟩
  · unfold IndexConfig.open
    dsimp only
    rw [hp]
  · unfold IndexConfig.open
    dsimp only
    rw [hp]
    unfold tagOfTable IndexConfig.new
    dsimp only
    rcases (tomlGet t "title").bind TomlValue.as_str with _ | a <;>
      rcases (tomlGet t "tag").bind TomlValue.as_array with _ | b <;> rfl
  · unfold renderIndex IndexConfig.new
    simp [String.join]

/-- Witness for C8 on concrete inputs: read failure, parse failure, and a
successful parse with one well-formed tag table, one tag table missing its
sub-fields, and one non-table entry. -/
theorem index_config_open_spec_witness :
    (IndexConfig.open (fun _ => .error "bad") "tags.toml" (.error "gone")
        = (IndexConfig.new, ["Failed to open " ++ "tags.toml" ++ ": " ++ "gone"]))
    ∧ (IndexConfig.open (fun _ => .error "bad") "tags.toml" (.ok "x")
        = (IndexConfig.new, ["Failed to parse " ++ "tags.toml" ++ ": " ++ "bad"]))
    ∧ (IndexConfig.open
        (fun _ => .ok
          [("title", .str "Site"),
           ("tag", .arr
             [.table [("name", .str "tech"), ("description", .str "d")],
              .table [("description", .integer 7)],
              .str "junk"])])
        "tags.toml" (.ok "x")
        = ({ title := "Site",
             tags := [{ name := "tech", description := "d" }, { name := "", description := "" }] },
           []))
    ∧ renderIndex IndexConfig.new [] = "# <center>  </center>\n" :=
  ⟨(index_config_open_spec (fun _ => .error "bad") "tags.toml").1 "gone",
   (index_config_open_spec (fun _ => .error "bad") "tags.toml").2.1 "x" "bad" rfl,
   by
    rw [(index_config_open_spec _ "tags.toml").2.2.1 "x"
      [("title", .str "Site"),
       ("tag", .arr
         [.table [("name", .str "tech"), ("description", .str "d")],
          .table [("description", .integer 7)],
          .str "junk"])] rfl]
    rfl,
   (index_config_open_spec (fun _ => .error "bad") "tags.toml").2.2.2 []⟩

end Evblog

namespace Evblog

lemma string_eq_empty_of_length (s : String) (h : s.length = 0) : s = "" := by
  cases s with
  | mk data =>
    cases data with
    | nil => rfl
    | cons c cs => simp [String.length] at h

/-- Anatomy of every successful `convert_document` run: the returned
metadata is the parsed front matter with the output file name filled in;
the written html is prologue ++ title heading ++ rendered body ++ epilogue;
the renderer received the full original document with raw HTML allowed; the
warnings are exactly the front-matter parser's log lines. -/
lemma convert_ok_spec (parse : TomlParser) (render : String → String)
    (cfg : ConvertConfig) (inName outName doc : String)
    (wr : Except String Unit) (r : ConvertResult)
    (hok : convert_document parse render cfg inName (.ok doc) outName wr = .ok r) :
    r.metadata = { (Metadata.from_toml parse (extractMetadataBlock doc)).1 with
                   file_name := outName }
    ∧ r.html = fragmentOf cfg.prologue ++ titleHeading r.metadata.title
        ++ render doc ++ fragmentOf cfg.epilogue
    ∧ r.renderedInput = doc
    ∧ r.options = { allow_dangerous_html := true, gfm := true }
    ∧ r.warnings = (Metadata.from_toml parse (extractMetadataBlock doc)).2 := by
  obtain ⟨pro, epi⟩ := cfg
  unfold convert_document optional_file_concat at hok
  dsimp only at hok
  rcases pro with _ | (e | sp) <;> rcases epi with _ | (e2 | se) <;>
    rcases wr with we | u <;>
      dsimp only at hok <;>
        first
        | (exfalso; exact Except.noConfusion hok)
        | (rcases hm : (Metadata.from_toml parse (extractMetadataBlock doc)).1.title
             with _ | t <;>
            rw [hm] at hok <;>
              (injection hok with h; subst h) <;>
                simp [fragmentOf, titleHeading, hm, String.append_assoc])

/-- C3: the written output is exactly prologue contents, then (when a title
is present) the centered level-1 heading containing the title verbatim,
then the rendered body, then epilogue contents, concatenated in that
order. -/
theorem assembly_concatenation (parse : TomlParser) (render : String → String)
    (cfg : ConvertConfig) (inName outName doc : String) (r : ConvertResult)
    (hok : convert_document parse render cfg inName (.ok doc) outName (.ok ()) = .ok r) :
    r.html = fragmentOf cfg.prologue ++ titleHeading r.metadata.title
      ++ render doc ++ fragmentOf cfg.epilogue
    ∧ (∀ t, r.metadata.title = some t →
        titleHeading r.metadata.title = "<h1><center> " ++ t ++ " </center></h1>\n") :=
  ⟨(convert_ok_spec parse render cfg inName outName doc (.ok ()) r hok).2.1,
   fun t ht => by rw [ht]; rfl⟩

/-- Witness for C3, the spec's own example: prologue "A", epilogue "B", a
body rendering to "(p)X(/p)", no title — output is exactly A<p>X</p>B. -/
theorem assembly_concatenation_witness :
    "A<p>X</p>B"
      = fragmentOf (some (Except.ok "A")) ++ titleHeading none
        ++ "<p>X</p>" ++ fragmentOf (some (Except.ok "B")) :=
  (assembly_concatenation (fun _ => .error "e") (fun _ => "<p>X</p>")
    { prologue := some (.ok "A"), epilogue := some (.ok "B") }
    "in.md" "out.html" "body"
    { metadata := { title := none, tags := [], publish_date := none,
                    file_name := "out.html" },
      html := "A<p>X</p>B", renderedInput := "body",
      options := { allow_dangerous_html := true, gfm := true },
      warnings := [] }
    rfl).1

/-- C10 (implicit): the front-matter comment block is not stripped — for a
document starting with the metadata marker, the renderer receives the full
original text (block included) with raw HTML allowed, and its output is
embedded as-is in the written html. -/
theorem raw_document_passthrough (parse : TomlParser) (render : String → String)
    (cfg : ConvertConfig) (inName outName doc : String)
    (wr : Except String Unit) (r : ConvertResult)
    (_hstart : strStartsWith doc "<!-- metadata" = true)
    (hok : convert_document parse render cfg inName (.ok doc) outName wr = .ok r) :
    r.renderedInput = doc
    ∧ r.options.allow_dangerous_html = true
    ∧ r.html = fragmentOf cfg.prologue ++ titleHeading r.metadata.title
        ++ render doc ++ fragmentOf cfg.epilogue := by
  obtain ⟨hmd, hhtml, hin, hopt, hw⟩ :=
    convert_ok_spec parse render cfg inName outName doc wr r hok
  exact ⟨hin, by rw [hopt], hhtml⟩

/-- Witness for C10: with the identity renderer, a marker-bearing document's
comment block survives into the output html verbatim. -/
theorem raw_document_passthrough_witness :
    "<!-- metadata\n-->" = "<!-- metadata\n-->"
    ∧ ({ allow_dangerous_html := true, gfm := true } : CompileOptions).allow_dangerous_html
        = true
    ∧ "<!-- metadata\n-->"
        = fragmentOf none ++ titleHeading none ++ "<!-- metadata\n-->" ++ fragmentOf none :=
  raw_document_passthrough (fun _ => .error "e") (fun s => s)
    { prologue := none, epilogue := none } "in.md" "o.html" "<!-- metadata\n-->"
    (.ok ())
    { metadata := { title := none, tags := [], publish_date := none, file_name := "o.html" },
      html := "<!-- metadata\n-->", renderedInput := "<!-- metadata\n-->",
      options := { allow_dangerous_html := true, gfm := true },
      warnings := [] }
    (by decide) rfl

end Evblog

namespace Evblog

/-- C6: a non-empty metadata block that fails to parse as TOML is logged and
yields the all-default record; the conversion still succeeds, writing the
prologue ++ rendered body ++ epilogue with no title heading, and the output
is non-empty whenever the rendered body is. -/
theorem malformed_toml_recovery (parse : TomlParser) (render : String → String)
    (cfg : ConvertConfig) (inName outName doc e : String) (r : ConvertResult)
    (hblock : extractMetadataBlock doc ≠ "")
    (hparse : parse (extractMetadataBlock doc) = .error e)
    (hok : convert_document parse render cfg inName (.ok doc) outName (.ok ()) = .ok r) :
    r.metadata = { Metadata.new with file_name := outName }
    ∧ r.warnings = ["Failed to read TOML: " ++ e]
    ∧ r.html = fragmentOf cfg.prologue ++ render doc ++ fragmentOf cfg.epilogue
    ∧ (render doc ≠ "" → r.html ≠ "") := by
  obtain ⟨hmd, hhtml, hin, hopt, hw⟩ :=
    convert_ok_spec parse render cfg inName outName doc (.ok ()) r hok
  have hlen : ¬ (extractMetadataBlock doc).length = 0 := by
    intro h0
    exact hblock (string_eq_empty_of_length _ h0)
  have hft : Metadata.from_toml parse (extractMetadataBlock doc)
      = (Metadata.new, ["Failed to read TOML: " ++ e]) := by
    unfold Metadata.from_toml
    rw [if_neg hlen, hparse]
  rw [hft] at hmd hw
  have htitle : r.metadata.title = none := by rw [hmd]; rfl
  have hhtml2 : r.html = fragmentOf cfg.prologue ++ render doc ++ fragmentOf cfg.epilogue := by
    rw [hhtml, htitle]
    simp [titleHeading]
  refine ⟨hmd, hw, hhtml2, fun hrd hempty => hrd ?_⟩
  rw [hhtml2] at hempty
  have hl := congrArg String.length hempty
  simp only [String.length_append] at hl
  apply string_eq_empty_of_length
  have h0 : ("" : String).length = 0 := rfl
  omega

/-- Witness for C6: an unterminated front-matter block with a failing TOML
parser still converts, with default metadata, a parse-failure log line, no
heading, and non-empty output. -/
theorem malformed_toml_recovery_witness :
    ({ title := none, tags := [], publish_date := none, file_name := "o.html" } : Metadata)
        = { Metadata.new with file_name := "o.html" }
    ∧ ["Failed to read TOML: unterminated"]
        = ["Failed to read TOML: " ++ "unterminated"]
    ∧ "<p>x</p>" = fragmentOf none ++ "<p>x</p>" ++ fragmentOf none
    ∧ ("<p>x</p>" ≠ "" → "<p>x</p>" ≠ "") :=
  malformed_toml_recovery (fun _ => .error "unterminated") (fun _ => "<p>x</p>")
    { prologue := none, epilogue := none } "in.md" "o.html" "<!-- metadata\nbad"
    "unterminated"
    { metadata := { title := none, tags := [], publish_date := none, file_name := "o.html" },
      html := "<p>x</p>", renderedInput := "<!-- metadata\nbad",
      options := { allow_dangerous_html := true, gfm := true },
      warnings := ["Failed to read TOML: unterminated"] }
    (by decide) rfl rfl

end Evblog

namespace Evblog

/-- C9 (amended): an unreadable source document or an unwritable destination
reports on the error stream and terminates via `exit(1)`; an unreadable
prologue or epilogue terminates via a panic (a nonzero status that is not 1)
with the error message; and in a directory run any output files already
written for previously processed documents remain on disk (the accumulated
write list is a prefix of nothing lost). -/
theorem fatal_io_spec (parse : TomlParser) (render : String → String)
    (inName outName doc e : String) (wr : Except String Unit) :
    (∀ cfg : ConvertConfig,
      convert_document parse render cfg inName (.error e) outName wr
        = .error (.exitCode 1 ("Failed to read " ++ inName ++ ": " ++ e)))
    ∧ (∀ pro epi : Option String,
      convert_document parse render
          { prologue := pro.map .ok, epilogue := epi.map .ok }
          inName (.ok doc) outName (.error e)
        = .error (.exitCode 1 ("Failed to write to " ++ outName ++ ": " ++ e)))
    ∧ (∀ epi : Option (Except String String),
      convert_document parse render { prologue := some (.error e), epilogue := epi }
          inName (.ok doc) outName wr
        = .error (.panicked e)
      ∧ exitsWithCodeOne (.panicked e) = false)
    ∧ (∀ pro : Option String,
      convert_document parse render
          { prologue := pro.map .ok, epilogue := some (.error e) }
          inName (.ok doc) outName wr
        = .error (.panicked e)
      ∧ exitsWithCodeOne (.panicked e) = false)
    ∧ (∀ (cfg : ConvertConfig) (jobs : List DocJob) (mds : List Metadata)
        (written w : List (String × String)) (f : Fatal),
      processDocs parse render cfg jobs mds written = .error (f, w) →
      written <+: w) := by
  refine ⟨fun cfg => rfl, fun pro epi => ?_, fun epi => ⟨?_, rfl⟩,
    fun pro => ⟨?_, rfl⟩, ?_⟩
  · rcases pro with _ | sp <;> rcases epi with _ | se <;>
      (unfold convert_document optional_file_concat
       dsimp only
       rcases (Metadata.from_toml parse (extractMetadataBlock doc)).1.title
         with _ | t <;> rfl)
  · rfl
  · rcases pro with _ | sp <;>
      (unfold convert_document optional_file_concat
       dsimp only
       rcases (Metadata.from_toml parse (extractMetadataBlock doc)).1.title
         with _ | t <;> rfl)
  · intro cfg jobs
    induction jobs with
    | nil =>
      intro mds written w f h
      exact absurd h (by simp [processDocs])
    | cons job rest ih =>
      intro mds written w f h
      unfold processDocs at h
      rcases hc : convert_document parse render cfg job.path job.readResult
          job.outPath job.writeResult with fa | r
      · rw [hc] at h
        injection h with h2
        cases h2
        exact List.prefix_rfl
      · rw [hc] at h
        exact List.IsPrefix.trans (List.prefix_append written _) (ih _ _ _ _ h)

/-- C9 counterexample to the claim as stated: with a readable source and a
configured-but-unreadable prologue, the process terminates by panic (Rust
exit status 101), not with exit code 1 as the claim asserts for every fatal
I/O failure. -/
theorem fatal_io_counterexample :
    convert_document (fun _ => .error "x") (fun _ => "")
        { prologue := some (.error "denied"), epilogue := none }
        "doc.md" (.ok "hello") "doc.html" (.ok ())
      = .error (.panicked "denied")
    ∧ exitsWithCodeOne (.panicked "denied") = false := by
  constructor
  · rfl
  · rfl

/-- Witness for C9 at concrete inputs: an unreadable source exits with code
1 and its message; a run whose second document is unwritable keeps the first
document's written output. -/
theorem fatal_io_spec_witness :
    (convert_document (fun _ => .error "x") (fun _ => "<p></p>")
        { prologue := none, epilogue := none }
        "a.md" (.error "gone") "a.html" (.ok ())
      = .error (.exitCode 1 ("Failed to read " ++ "a.md" ++ ": " ++ "gone")))
    ∧ ([("good.html", "<p></p>")] <+:
        [("good.html", "<p></p>")]) := by
  constructor
  · exact (fatal_io_spec (fun _ => .error "x") (fun _ => "<p></p>")
      "a.md" "a.html" "d" "gone" (.ok ())).1 { prologue := none, epilogue := none }
  · exact (fatal_io_spec (fun _ => .error "x") (fun _ => "<p></p>")
      "a.md" "bad.html" "d" "boom" (.error "boom")).2.2.2.2
      { prologue := none, epilogue := none }
      [ { path := "bad.md", readResult := .ok "d", outPath := "bad.html",
          writeResult := .error "boom" } ]
      [] [("good.html", "<p></p>")] [("good.html", "<p></p>")]
      (.exitCode 1 ("Failed to write to bad.html: boom"))
      rfl

end Evblog

namespace Evblog

lemma filterMap_listing (l : List Metadata) :
    l.filterMap articleListingLine
      = (l.filter (fun a => a.title.isSome)).filterMap articleListingLine := by
  induction l with
  | nil => rfl
  | cons a rest ih =>
    rcases h : a.title with _ | t
    · simp [List.filterMap_cons, List.filter_cons, articleListingLine, h, ih]
    · simp [List.filterMap_cons, List.filter_cons, articleListingLine, h, ih]

/-- C4 (amended): a document is listed in a tag's section exactly when its
`tags` contain the tag's name and a title is *present* (a present-but-empty
title still counts; only a missing title excludes a document); a listed
document's line is the hyperlink `- [title](output_file_name)` followed by
`<br>` and the long-form date when a publish date is present. -/
theorem tag_section_listing (article_data : List Metadata) (tagName : String)
    (a : Metadata) :
    (a ∈ listedArticles article_data tagName ↔
      a ∈ article_data ∧ tagName ∈ a.tags ∧ a.title.isSome = true)
    ∧ sectionLines article_data tagName
        = (listedArticles article_data tagName).filterMap articleListingLine
    ∧ (∀ t, a.title = some t →
        articleListingLine a
          = some ("- [" ++ t ++ "](" ++ a.file_name ++ ")" ++ listingDatePart a ++ "\n"))
    ∧ (∀ d, a.publish_date = some d →
        listingDatePart a = "<br>" ++ date_to_english d) := by
  refine ⟨?_, ?_, fun t ht => ?_, fun d hd => ?_⟩
  · unfold listedArticles
    simp only [List.mem_filter, List.contains, List.elem_iff, and_assoc]
  · unfold sectionLines listedArticles
    exact filterMap_listing _
  · unfold articleListingLine
    rw [ht]
  · unfold listingDatePart
    rw [hd]

/-- Witness for C4 at a concrete article: a dated, titled, tagged article's
listing line and date part. -/
theorem tag_section_listing_witness :
    articleListingLine
        { title := some "A", tags := ["tech"], publish_date := some ⟨2024, 5, 1⟩,
          file_name := "a.html" }
      = some ("- [" ++ "A" ++ "](" ++ "a.html" ++ ")"
          ++ listingDatePart
              { title := some "A", tags := ["tech"], publish_date := some ⟨2024, 5, 1⟩,
                file_name := "a.html" } ++ "\n")
    ∧ listingDatePart
        { title := some "A", tags := ["tech"], publish_date := some ⟨2024, 5, 1⟩,
          file_name := "a.html" }
      = "<br>" ++ date_to_english ⟨2024, 5, 1⟩ :=
  ⟨(tag_section_listing
      [{ title := some "A", tags := ["tech"], publish_date := some ⟨2024, 5, 1⟩,
         file_name := "a.html" }] "tech"
      { title := some "A", tags := ["tech"], publish_date := some ⟨2024, 5, 1⟩,
        file_name := "a.html" }).2.2.1 "A" rfl,
   (tag_section_listing
      [{ title := some "A", tags := ["tech"], publish_date := some ⟨2024, 5, 1⟩,
         file_name := "a.html" }] "tech"
      { title := some "A", tags := ["tech"], publish_date := some ⟨2024, 5, 1⟩,
        file_name := "a.html" }).2.2.2 ⟨2024, 5, 1⟩ rfl⟩

/-- C4 counterexample to the claim as stated: a document whose title is the
*empty string* (`title = ""` in its front matter) is nevertheless listed in
the matching tag's section, with empty link text — the code only requires
the title to be present, not non-empty. -/
theorem empty_title_listed_counterexample :
    listedArticles
        [{ title := some "", tags := ["tech"], publish_date := none,
           file_name := "e.html" }] "tech"
      = [{ title := some "", tags := ["tech"], publish_date := none,
           file_name := "e.html" }]
    ∧ sectionLines
        [{ title := some "", tags := ["tech"], publish_date := none,
           file_name := "e.html" }] "tech"
      = ["- [](e.html)\n"]
    ∧ ({ title := some "", tags := ["tech"], publish_date := none,
         file_name := "e.html" } : Metadata).title = some "" := by
  refine ⟨by decide, by decide, rfl⟩

end Evblog

namespace Evblog

lemma articleLE_iff (x y : Metadata) : articleLE x y ↔ specBefore x y := by
  unfold articleLE dateCmpDesc specBefore
  rcases x.publish_date with _ | dx <;> rcases y.publish_date with _ | dy
  · simp
  · simp
  · simp
  · unfold natCmp Date.lexLE
    dsimp only
    split_ifs <;> simp_all <;> omega

instance : IsTotal Metadata articleLE :=
  ⟨fun x y => by
    rw [articleLE_iff, articleLE_iff]
    unfold specBefore Date.lexLE
    rcases x.publish_date with _ | dx <;> rcases y.publish_date with _ | dy <;>
      simp <;> omega⟩

instance : IsTrans Metadata articleLE :=
  ⟨fun x y z => by
    simp only [articleLE_iff]
    unfold specBefore Date.lexLE
    rcases x.publish_date with _ | dx <;> rcases y.publish_date with _ | dy <;>
      rcases z.publish_date with _ | dz <;> first | omega | simp⟩

/-- C1: the index sort is a permutation of the collected list that is
pairwise ordered by publish date descending (year, then month, then day as
tie-breaks), places every dateless document after every dated one, and is
stable: any two documents on which the comparator returns `Equal`
(including two dateless documents) keep their relative enumeration order. -/
theorem index_sort_spec (l : List Metadata) :
    (sortArticles l).Perm l
    ∧ (sortArticles l).Pairwise specBefore
    ∧ (sortArticles l).Pairwise
        (fun x y => x.publish_date = none → y.publish_date = none)
    ∧ (∀ x y, List.Sublist [x, y] l → dateCmpDesc x y = Ordering.eq →
        List.Sublist [x, y] (sortArticles l)) := by
  unfold sortArticles
  have hsorted : (List.insertionSort articleLE l).Pairwise articleLE :=
    List.sorted_insertionSort articleLE l
  refine ⟨List.perm_insertionSort articleLE l, ?_, ?_, ?_⟩
  · exact hsorted.imp (fun h => (articleLE_iff _ _).mp h)
  · refine hsorted.imp ?_
    intro x y h hxnone
    have hs := (articleLE_iff x y).mp h
    unfold specBefore at hs
    rw [hxnone] at hs
    rcases hy : y.publish_date with _ | dy
    · rfl
    · rw [hy] at hs
      exact absurd hs (by simp)
  · intro x y hsub heq
    refine List.sublist_insertionSort (List.pairwise_pair.mpr ?_) hsub
    unfold articleLE
    rw [heq]
    simp

/-- Witness for C1: two distinct articles sharing the same publish date stay
in their enumeration order after sorting. -/
theorem index_sort_spec_witness :
    List.Sublist
      [{ title := some "first", tags := [], publish_date := some ⟨2024, 1, 1⟩,
         file_name := "first.html" },
     { title := some "second", tags := [], publish_date := some ⟨2024, 1, 1⟩,
       file_name := "second.html" }]
      (sortArticles
        [{ title := some "first", tags := [], publish_date := some ⟨2024, 1, 1⟩,
           file_name := "first.html" },
         { title := some "second", tags := [], publish_date := some ⟨2024, 1, 1⟩,
           file_name := "second.html" }]) :=
  (index_sort_spec _).2.2.2 _ _ (List.Sublist.refl _) rfl

end Evblog
